import Mathlib

/- Shallow embedding of the algorithmic core of the RentGuard360 repository:
   the text normalizer / sanitizer of `src/backend/lambdas/privacy-shield.py`
   and the deterministic score recalculation of `src/backend/lambdas/ai-analyzer.py`.

   Modelling conventions:
   - Text is `List Char`; `String` appears only at the entry points.
   - Each Python regular expression used by the source is translated into an
     executable matcher over `List Char` that reproduces the behaviour of
     Python `re` (leftmost match, greedy quantifiers with backtracking,
     word boundaries, lookarounds) for that specific pattern.
   - Python character classes are modelled on the scripts that occur in this
     code base: ASCII plus the Hebrew block (and the Unicode whitespace set
     for `\s` and `str.strip`).  This is noted at each definition.
   - Fallible Python operations (`int(...)` on strings, dictionary lookup
     with defaults) are modelled with `Option`. -/

/- ===================== shared character utilities ===================== -/

/-- Python whitespace (`\s` in `re` with `str` patterns, and the set stripped
by `str.strip`): ASCII whitespace, the C1 separators, NBSP, and the Unicode
space/line/paragraph separators. -/
def isPySpace (c : Char) : Bool :=
  decide (c.toNat = 0x20 ∨ c.toNat = 0x9 ∨ c.toNat = 0xa ∨ c.toNat = 0xd ∨
    c.toNat = 0xb ∨ c.toNat = 0xc ∨ (0x1c ≤ c.toNat ∧ c.toNat ≤ 0x1f) ∨
    c.toNat = 0x85 ∨ c.toNat = 0xa0 ∨ c.toNat = 0x1680 ∨
    (0x2000 ≤ c.toNat ∧ c.toNat ≤ 0x200a) ∨ c.toNat = 0x2028 ∨
    c.toNat = 0x2029 ∨ c.toNat = 0x202f ∨ c.toNat = 0x205f ∨ c.toNat = 0x3000)

/-- Python `\w` (word character) restricted to the scripts occurring in this
repository: ASCII alphanumerics, the underscore, and Hebrew letters
U+05D0 to U+05EA. -/
def isPyWord (c : Char) : Bool :=
  c.isAlphanum || c = '_' || decide (0x5d0 ≤ c.toNat ∧ c.toNat ≤ 0x5ea)

/-- Python `str.strip()` over `List Char`. -/
def pyStrip (l : List Char) : List Char :=
  ((l.dropWhile isPySpace).reverse.dropWhile isPySpace).reverse

/-- Decimal digits of a string as a natural number, `none` if the character
list is empty or contains a non-digit (helper for Python `int(...)`). -/
def digitsToNat : List Char → Option Nat
  | [] => none
  | l =>
    if l.all Char.isDigit then
      some (l.foldl (fun n c => n * 10 + (c.toNat - 48)) 0)
    else none

/-- Python `int(s)` on a string: strips whitespace, an optional sign, then
decimal digits (the rarely used underscore grouping of Python literals is
not modelled; no claim depends on it). `none` models a raised `ValueError`. -/
def pyIntOfString (s : String) : Option Int :=
  match pyStrip s.data with
  | [] => none
  | c :: cs =>
    if c = '+' then (digitsToNat cs).map (fun n => (n : Int))
    else if c = '-' then (digitsToNat cs).map (fun n => -(n : Int))
    else (digitsToNat (c :: cs)).map (fun n => (n : Int))

/- ===================== ai-analyzer.py : recalculate_scores ===================== -/

/-- A Python value that may sit in the `penalty_points` field of an issue:
an integer, a string, or `None`. -/
inductive PyPen where
  | pint (z : Int)
  | pstr (s : String)
  | pnull
deriving DecidableEq, Repr

/-- One issue record returned by the external reasoner.  `rule_id` and
`penalty_points` are `Option` because the Python code reads them with
`issue.get(...)` defaults; `description` stands for the untouched
descriptive text fields of the dict. -/
structure Issue where
  rule_id : Option String
  penalty_points : Option PyPen
  description : String
deriving DecidableEq, Repr

/-- The five scoring categories of `recalculate_scores`. -/
inductive Cat where
  | financial_terms
  | tenant_rights
  | termination_clauses
  | liability_repairs
  | legal_compliance
deriving DecidableEq, Repr

/-- The fixed list of the five categories, in the order the source
initializes `category_scores`. -/
def allCats : List Cat :=
  [Cat.financial_terms, Cat.tenant_rights, Cat.termination_clauses,
   Cat.liability_repairs, Cat.legal_compliance]

/-- `prefix_map` of `ai-analyzer.py`: first rule-id letter to category. -/
def prefix_map (c : Char) : Option Cat :=
  if c = 'F' then some Cat.financial_terms
  else if c = 'T' then some Cat.tenant_rights
  else if c = 'E' then some Cat.termination_clauses
  else if c = 'L' then some Cat.liability_repairs
  else if c = 'C' then some Cat.legal_compliance
  else none

/-- One entry of the `score_breakdown` dict.  In the not-a-contract branch
the source emits only the `score` key, hence the `Option` fields for
`penalties` and `max`. -/
structure CatEntry where
  score : Int
  penalties : Option Int
  maxPts : Option Int
deriving DecidableEq, Repr

/-- The `score_breakdown` dict with its five fixed keys. -/
structure ScoreBreakdown where
  financial_terms : CatEntry
  tenant_rights : CatEntry
  termination_clauses : CatEntry
  liability_repairs : CatEntry
  legal_compliance : CatEntry
deriving DecidableEq, Repr

/-- Projection of a `ScoreBreakdown` at a category. -/
def bdGet (b : ScoreBreakdown) : Cat → CatEntry
  | Cat.financial_terms => b.financial_terms
  | Cat.tenant_rights => b.tenant_rights
  | Cat.termination_clauses => b.termination_clauses
  | Cat.liability_repairs => b.liability_repairs
  | Cat.legal_compliance => b.legal_compliance

/-- The analysis dict handled by `recalculate_scores`. `summary` stands for
all the fields the function never touches (summary text, clause references,
and so on). -/
structure AnalysisResult where
  is_contract : Option Bool
  issues : List Issue
  overall_risk_score : Option Int
  score_breakdown : Option ScoreBreakdown
  summary : String
deriving DecidableEq, Repr

/-- `issue.get('rule_id', '')`. -/
def ruleIdOf (i : Issue) : String := i.rule_id.getD ""

/-- `int(issue.get('penalty_points', 0))` with the `except (ValueError,
TypeError): penalty = 0` of the source: a missing field reads as `0`, a
numeric value passes through, a string is parsed (failure gives `0`), and
`None` (a `TypeError` for `int`) gives `0`. -/
def parsePenalty (i : Issue) : Int :=
  match i.penalty_points with
  | none => 0
  | some (PyPen.pint z) => z
  | some (PyPen.pstr s) => (pyIntOfString s).getD 0
  | some PyPen.pnull => 0

/-- The acceptance test `if rule_id and len(rule_id) > 0 and penalty > 0`
of `recalculate_scores`. -/
def acceptIssue (i : Issue) : Bool :=
  decide (ruleIdOf i ≠ "" ∧ 0 < parsePenalty i)

/-- `prefix_map.get(rule_id[0].upper())` for an issue: the category its rule
prefix maps to, if any.  `Char.toUpper` matches Python `str.upper` on the
ASCII letters that the map keys live in. -/
def catOf (i : Issue) : Option Cat :=
  match (ruleIdOf i).data with
  | [] => none
  | c :: _ => prefix_map c.toUpper

/-- Running state of the issue loop in `recalculate_scores`:
`category_scores`, `category_penalties_sum`, and `filtered_issues`. -/
structure CalcSt where
  scores : Cat → Int
  sums : Cat → Int
  filtered : List Issue

/-- Initial state: every category at 20 points, sums at 0, no issues. -/
def initCalcSt : CalcSt :=
  { scores := fun _ => 20, sums := fun _ => 0, filtered := [] }

/-- One iteration of the `for issue in analysis_json.get('issues', [])`
loop of `recalculate_scores`, translated line by line. -/
def stepIssue (st : CalcSt) (i : Issue) : CalcSt :=
  if acceptIssue i then
    let st1 :=
      match catOf i with
      | some cat =>
        { st with
          scores := fun c => if c = cat then max 0 (st.scores c - parsePenalty i) else st.scores c,
          sums := fun c => if c = cat then st.sums c + parsePenalty i else st.sums c }
      | none => st
    { st1 with filtered := st1.filtered ++ [i] }
  else st

/-- The all-zero `score_breakdown` emitted by the not-a-contract branch
(only the `score` keys are present in the source dict). -/
def zeroBreakdown : ScoreBreakdown :=
  { financial_terms := { score := 0, penalties := none, maxPts := none },
    tenant_rights := { score := 0, penalties := none, maxPts := none },
    termination_clauses := { score := 0, penalties := none, maxPts := none },
    liability_repairs := { score := 0, penalties := none, maxPts := none },
    legal_compliance := { score := 0, penalties := none, maxPts := none } }

/-- Breakdown entry built by the synchronized `score_breakdown` loop. -/
def mkEntry (st : CalcSt) (cat : Cat) : CatEntry :=
  { score := st.scores cat, penalties := some (st.sums cat), maxPts := some 20 }

/-- `recalculate_scores` of `ai-analyzer.py`, translated clause by clause:
the `if not analysis_json.get('is_contract', True)` short circuit, the
validation/deduction loop, the overall sum, and the field updates. -/
def recalculate_scores (r : AnalysisResult) : AnalysisResult :=
  if r.is_contract.getD true = false then
    { r with overall_risk_score := some 0, score_breakdown := some zeroBreakdown }
  else
    let st := r.issues.foldl stepIssue initCalcSt
    let overall := st.scores Cat.financial_terms + st.scores Cat.tenant_rights +
      st.scores Cat.termination_clauses + st.scores Cat.liability_repairs +
      st.scores Cat.legal_compliance
    { r with
      issues := st.filtered,
      score_breakdown := some
        { financial_terms := mkEntry st Cat.financial_terms,
          tenant_rights := mkEntry st Cat.tenant_rights,
          termination_clauses := mkEntry st Cat.termination_clauses,
          liability_repairs := mkEntry st Cat.liability_repairs,
          legal_compliance := mkEntry st Cat.legal_compliance },
      overall_risk_score := some overall }

/-- Specification-side formula: the sum of the parsed penalties of the
accepted issues of `l` whose rule prefix maps to `cat`. -/
def penSumMap (cat : Cat) (l : List Issue) : Int :=
  (((l.filter acceptIssue).filter (fun i => catOf i == some cat)).map parsePenalty).sum

/-- Specification-side formula for one breakdown entry on the contract path:
score floored at zero, raw penalty sum, fixed ceiling. -/
def formulaEntry (cat : Cat) (l : List Issue) : CatEntry :=
  { score := max 0 (20 - penSumMap cat l), penalties := some (penSumMap cat l), maxPts := some 20 }

/-- Specification-side formula for the whole breakdown. -/
def formulaBreakdown (l : List Issue) : ScoreBreakdown :=
  { financial_terms := formulaEntry Cat.financial_terms l,
    tenant_rights := formulaEntry Cat.tenant_rights l,
    termination_clauses := formulaEntry Cat.termination_clauses l,
    liability_repairs := formulaEntry Cat.liability_repairs l,
    legal_compliance := formulaEntry Cat.legal_compliance l }

/-- Specification-side formula for the overall score: sum of the five
floored category scores. -/
def formulaOverall (l : List Issue) : Int :=
  (allCats.map (fun c => max 0 (20 - penSumMap c l))).sum

/-- Breakdown with every category untouched at 20 and zero penalties. -/
def fullBreakdown : ScoreBreakdown :=
  { financial_terms := { score := 20, penalties := some 0, maxPts := some 20 },
    tenant_rights := { score := 20, penalties := some 0, maxPts := some 20 },
    termination_clauses := { score := 20, penalties := some 0, maxPts := some 20 },
    liability_repairs := { score := 20, penalties := some 0, maxPts := some 20 },
    legal_compliance := { score := 20, penalties := some 0, maxPts := some 20 } }

/-- Concrete input of the spec scenario S2: two financial issues. -/
def exS2 : AnalysisResult :=
  { is_contract := some true,
    issues := [{ rule_id := some "F1", penalty_points := some (PyPen.pint 10), description := "late fee" },
               { rule_id := some "F4", penalty_points := some (PyPen.pint 15), description := "deposit" }],
    overall_risk_score := none, score_breakdown := none, summary := "s2" }

/-- Expected output for S2: financial floored at 0 with penalty sum 25,
overall 80. -/
def expS2 : AnalysisResult :=
  { is_contract := some true,
    issues := exS2.issues,
    overall_risk_score := some 80,
    score_breakdown := some
      { financial_terms := { score := 0, penalties := some 25, maxPts := some 20 },
        tenant_rights := { score := 20, penalties := some 0, maxPts := some 20 },
        termination_clauses := { score := 20, penalties := some 0, maxPts := some 20 },
        liability_repairs := { score := 20, penalties := some 0, maxPts := some 20 },
        legal_compliance := { score := 20, penalties := some 0, maxPts := some 20 } },
    summary := "s2" }

/-- Concrete input of the spec scenario S3: an issue with an empty rule id
and an issue with the unmapped prefix Z. -/
def exS3 : AnalysisResult :=
  { is_contract := some true,
    issues := [{ rule_id := some "", penalty_points := some (PyPen.pint 5), description := "empty" },
               { rule_id := some "Z9", penalty_points := some (PyPen.pint 5), description := "unknown" }],
    overall_risk_score := none, score_breakdown := none, summary := "s3" }

/-- Expected output for S3: the empty-id issue dropped, the Z9 issue kept,
no deductions anywhere. -/
def expS3 : AnalysisResult :=
  { is_contract := some true,
    issues := [{ rule_id := some "Z9", penalty_points := some (PyPen.pint 5), description := "unknown" }],
    overall_risk_score := some 100,
    score_breakdown := some fullBreakdown,
    summary := "s3" }

/-- A financial issue worth 10 points, for the permutation scenario. -/
def issF : Issue :=
  { rule_id := some "F1", penalty_points := some (PyPen.pint 10), description := "f" }

/-- A tenant-rights issue worth 5 points, for the permutation scenario. -/
def issT : Issue :=
  { rule_id := some "T2", penalty_points := some (PyPen.pint 5), description := "t" }

/-- Base analysis record for the permutation scenario. -/
def permBase : AnalysisResult :=
  { is_contract := some true, issues := [],
    overall_risk_score := none, score_breakdown := none, summary := "p" }

/-- Permutation scenario, first order. -/
def exPermA : AnalysisResult := { permBase with issues := [issF, issT] }

/-- Permutation scenario, second order. -/
def exPermB : AnalysisResult := { permBase with issues := [issT, issF] }

/-- Non-contract record carrying an invalid issue (empty rule id), used to
show the short-circuit branch does not drop invalid issues. -/
def exC10 : AnalysisResult :=
  { is_contract := some false,
    issues := [{ rule_id := some "", penalty_points := some (PyPen.pint 5), description := "kept" }],
    overall_risk_score := none, score_breakdown := none, summary := "c10" }

/- ===================== privacy-shield.py : regex machinery ===================== -/

/-- Length of the leading run of characters satisfying `p`. -/
def runLen (p : Char → Bool) (l : List Char) : Nat := (l.takeWhile p).length

/-- State of a Python `\b` placed right after a word character: matches when
the next position (head of `l`) is the end of the string or a non-word
character. -/
def nonWordAt (l : List Char) : Bool :=
  match l with
  | [] => true
  | c :: _ => !isPyWord c

/-- Python `\b` before the current position when the current character is a
word character: the previous character, if any, must not be a word
character. -/
def boundaryBeforeWord (prev : Option Char) : Bool :=
  match prev with
  | none => true
  | some p => !isPyWord p

/-- Consume exactly `n` decimal digits, returning the remainder. -/
def chompDigits : Nat → List Char → Option (List Char)
  | 0, l => some l
  | _ + 1, [] => none
  | n + 1, c :: cs => if c.isDigit then chompDigits n cs else none

/-- The separator class `[-\s]` of the credit-card, phone and bank
patterns. -/
def isSepChar (c : Char) : Bool := c = '-' || isPySpace c

/-- `[-\s]?` directly before a digit atom: when a separator is present it is
consumed.  The regex alternative of skipping a present separator would put
the digit atom on the separator character and fail, so for these patterns
the greedy option is deterministic. -/
def optSep (l : List Char) : List Char :=
  match l with
  | c :: cs => if isSepChar c then cs else c :: cs
  | [] => []

/-- Matcher for `\b[0-9]{8,9}\b` (israeli_id) at the current position: the
digit run starting here must have length exactly 8 or 9 (a longer run makes
the trailing `\b` fail for both quantifier choices) and be word-bounded on
both sides. -/
def israeliIdMatchAt (prev : Option Char) (l : List Char) : Option Nat :=
  match l with
  | [] => none
  | c :: _ =>
    if c.isDigit && boundaryBeforeWord prev then
      let k := runLen Char.isDigit l
      if (k = 8 || k = 9) && nonWordAt (l.drop k) then some k else none
    else none

/-- Matcher for `\b\d{4}[-\s]?\d{4}[-\s]?\d{4}[-\s]?\d{4}\b`
(credit_card). -/
def creditCardMatchAt (prev : Option Char) (l : List Char) : Option Nat :=
  if boundaryBeforeWord prev then
    match chompDigits 4 l with
    | none => none
    | some r1 =>
      match chompDigits 4 (optSep r1) with
      | none => none
      | some r2 =>
        match chompDigits 4 (optSep r2) with
        | none => none
        | some r3 =>
          match chompDigits 4 (optSep r3) with
          | none => none
          | some r4 => if nonWordAt r4 then some (l.length - r4.length) else none
  else none

/-- Matcher for `\b05\d[-\s]?\d{3}[-\s]?\d{4}\b` (phone_mobile). -/
def phoneMatchAt (prev : Option Char) (l : List Char) : Option Nat :=
  if boundaryBeforeWord prev then
    match l with
    | '0' :: '5' :: d :: rest =>
      if d.isDigit then
        match chompDigits 3 (optSep rest) with
        | none => none
        | some r1 =>
          match chompDigits 4 (optSep r1) with
          | none => none
          | some r2 => if nonWordAt r2 then some (l.length - r2.length) else none
      else none
    | _ => none
  else none

/-- The local-part class `[a-zA-Z0-9._%+-]` of the email pattern. -/
def isEmailLocal (c : Char) : Bool :=
  c.isAlphanum || c = '.' || c = '_' || c = '%' || c = '+' || c = '-'

/-- The domain class `[a-zA-Z0-9.-]` of the email pattern. -/
def isEmailDom (c : Char) : Bool := c.isAlphanum || c = '.' || c = '-'

/-- Greedy search for the `\.` of `[a-zA-Z0-9.-]+\.[a-zA-Z]{2,}`: the `+`
consumes `j` characters (largest viable `j` first, per greedy
backtracking), the dot sits at index `j`, and `[a-zA-Z]{2,}` then takes the
maximal letter run.  Returns the total length matched inside the domain
part. -/
def emailDotSearch (rest : List Char) : Nat → Option Nat
  | 0 => none
  | k + 1 =>
    if rest.getD (k + 1) ' ' = '.' then
      let la := runLen Char.isAlpha (rest.drop (k + 2))
      if 2 ≤ la then some ((k + 1) + 1 + la) else emailDotSearch rest k
    else emailDotSearch rest k

/-- Matcher for `[a-zA-Z0-9._%+-]+@[a-zA-Z0-9.-]+\.[a-zA-Z]{2,}` (email).
The local `+` is effectively maximal: a shorter choice leaves a local-class
character where `@` is required. -/
def emailMatchAt (_prev : Option Char) (l : List Char) : Option Nat :=
  let r1 := runLen isEmailLocal l
  if r1 = 0 then none
  else
    match l.drop r1 with
    | '@' :: rest =>
      let rd := runLen isEmailDom rest
      match emailDotSearch rest (rd - 1) with
      | some dlen => some (r1 + 1 + dlen)
      | none => none
    | _ => none

/-- Tail of the bank pattern after the leading `\d{2,3}`:
`[-\s]?\d{3}[-\s]?\d{6,9}\b`, the greedy `\d{6,9}` tried from nine digits
down to six. -/
def bankTail (l : List Char) : Option (List Char) :=
  match chompDigits 3 (optSep l) with
  | none => none
  | some r1 =>
    let r2 := optSep r1
    [9, 8, 7, 6].findSome? fun c =>
      match chompDigits c r2 with
      | some r3 => if nonWordAt r3 then some r3 else none
      | none => none

/-- Matcher for `\b\d{2,3}[-\s]?\d{3}[-\s]?\d{6,9}\b` (bank_account); the
greedy `\d{2,3}` tries three digits, then backtracks to two. -/
def bankMatchAt (prev : Option Char) (l : List Char) : Option Nat :=
  if boundaryBeforeWord prev then
    let try3 :=
      match chompDigits 3 l with
      | some r => bankTail r
      | none => none
    let res :=
      match try3 with
      | some r => some r
      | none =>
        match chompDigits 2 l with
        | some r => bankTail r
        | none => none
    match res with
    | some rEnd => some (l.length - rEnd.length)
    | none => none
  else none

/-- One pass of Python `re.sub`: scan left to right, replace each
non-overlapping match and resume right after it; the lookbehind context at
the resume point is the last character the match consumed.  The fuel
`length + 1` always suffices because every step consumes at least one
character. -/
def pySubGo (m : Option Char → List Char → Option Nat) (repl : List Char) :
    Nat → Option Char → List Char → List Char
  | 0, _, l => l
  | _ + 1, _, [] => []
  | fuel + 1, prev, c :: cs =>
    match m prev (c :: cs) with
    | some n =>
      if 0 < n then
        repl ++ pySubGo m repl fuel (some ((c :: cs).getD (n - 1) c)) ((c :: cs).drop n)
      else c :: pySubGo m repl fuel (some c) cs
    | none => c :: pySubGo m repl fuel (some c) cs

/-- `pattern.sub(repl, text)` for one of the translated matchers. -/
def pySub (m : Option Char → List Char → Option Nat) (repl : List Char)
    (l : List Char) : List Char :=
  pySubGo m repl (l.length + 1) none l

/-- Scan of `pattern.search(text) is not None`. -/
def pySearchGo (m : Option Char → List Char → Option Nat) :
    Nat → Option Char → List Char → Bool
  | 0, _, _ => false
  | _ + 1, prev, [] => (m prev []).isSome
  | fuel + 1, prev, c :: cs => (m prev (c :: cs)).isSome || pySearchGo m fuel (some c) cs

/-- `pattern.search(text) is not None`. -/
def pySearch (m : Option Char → List Char → Option Nat) (l : List Char) : Bool :=
  pySearchGo m (l.length + 1) none l

/-- `pattern.finditer(text)` as the list of (start, length) of the
non-overlapping matches, left to right. -/
def pyFindIterGo (m : Option Char → List Char → Option Nat) :
    Nat → Option Char → Nat → List Char → List (Nat × Nat)
  | 0, _, _, _ => []
  | _ + 1, _, _, [] => []
  | fuel + 1, prev, pos, c :: cs =>
    match m prev (c :: cs) with
    | some n =>
      if 0 < n then
        (pos, n) :: pyFindIterGo m fuel (some ((c :: cs).getD (n - 1) c)) (pos + n) ((c :: cs).drop n)
      else pyFindIterGo m fuel (some c) (pos + 1) cs
    | none => pyFindIterGo m fuel (some c) (pos + 1) cs

/-- Start positions and lengths of all matches. -/
def pyFindIter (m : Option Char → List Char → Option Nat) (l : List Char) :
    List (Nat × Nat) :=
  pyFindIterGo m (l.length + 1) none 0 l

/- ===================== privacy-shield.py : sanitizer stages ===================== -/

/-- Replacement literal for israeli_id. -/
def REPL_ID : List Char := "[ת.ז. הוסתר]".data

/-- Replacement literal for credit_card. -/
def REPL_CC : List Char := "[כ.אשראי הוסתר]".data

/-- Replacement literal for phone_mobile. -/
def REPL_PHONE : List Char := "[נייד הוסתר]".data

/-- Replacement literal for email. -/
def REPL_EMAIL : List Char := "[אימייל הוסתר]".data

/-- Replacement literal for bank_account. -/
def REPL_BANK : List Char := "[חשבון בנק הוסתר]".data

/-- `PII_PATTERNS` in its Python dict (insertion) order: matcher,
replacement literal, category label. -/
def PII_PATTERNS : List ((Option Char → List Char → Option Nat) × List Char × String) :=
  [(israeliIdMatchAt, REPL_ID, "israeli_id"),
   (creditCardMatchAt, REPL_CC, "credit_card"),
   (phoneMatchAt, REPL_PHONE, "phone_mobile"),
   (emailMatchAt, REPL_EMAIL, "email"),
   (bankMatchAt, REPL_BANK, "bank_account")]

/-- `sanitize_pii` of `privacy-shield.py`: for each pattern in table order,
if it occurs record its label and substitute every occurrence. -/
def sanitize_pii (t : List Char) : List Char × List String :=
  PII_PATTERNS.foldl
    (fun (acc : List Char × List String) entry =>
      match entry with
      | (m, repl, tag) =>
        if pySearch m acc.1 then (pySub m repl acc.1, acc.2 ++ [tag]) else acc)
    (t, [])

/-- ASCII case-insensitive prefix comparison, for the `(?i)` patterns. -/
def ciStartsWith : List Char → List Char → Bool
  | [], _ => true
  | _ :: _, [] => false
  | a :: xs, b :: ys => (a.toLower = b.toLower) && ciStartsWith xs ys

/-- The watermark literal of the first noise pattern. -/
def SCANNER_TAG : List Char := "scanned with camscanner".data

/-- Matcher for `(?i)scanned with camscanner.*`: the tag, case-insensitive,
then the rest of the line (`.` does not cross a newline). -/
def camMatchAt (_prev : Option Char) (l : List Char) : Option Nat :=
  if ciStartsWith SCANNER_TAG l then
    some (SCANNER_TAG.length + runLen (fun c => !(c = '\n')) (l.drop SCANNER_TAG.length))
  else none

/-- The domain literal of the second noise pattern. -/
def WWW_TAG : List Char := "www.camscanner.com".data

/-- Matcher for `(?i)www\.camscanner\.com`. -/
def wwwMatchAt (_prev : Option Char) (l : List Char) : Option Nat :=
  if ciStartsWith WWW_TAG l then some WWW_TAG.length else none

/-- Matcher for `[ -‏]` (hidden directional characters). -/
def dirCharMatchAt (_prev : Option Char) (l : List Char) : Option Nat :=
  match l with
  | c :: _ => if decide (0x2000 ≤ c.toNat ∧ c.toNat ≤ 0x200f) then some 1 else none
  | [] => none

/-- The special-character noise class of the source, written by code point
to keep the file ASCII-safe: vertical bar, tilde, caret, section sign,
grave accent, registered, copyright and trademark signs. -/
def NOISE_CHARS : List Char :=
  ['|', '~', '^', Char.ofNat 0xa7, Char.ofNat 0x60, Char.ofNat 0xae,
   Char.ofNat 0xa9, Char.ofNat 0x2122]

/-- Matcher for the special-character class. -/
def specialMatchAt (_prev : Option Char) (l : List Char) : Option Nat :=
  match l with
  | c :: _ => if NOISE_CHARS.contains c then some 1 else none
  | [] => none

/-- Matcher for `[_]{3,}`: a maximal run of at least three underscores. -/
def underlineMatchAt (_prev : Option Char) (l : List Char) : Option Nat :=
  let k := runLen (fun c => c = '_') l
  if 3 ≤ k then some k else none

/-- Matcher for `[ \t]+` (the horizontal-whitespace collapse). -/
def hwsMatchAt (_prev : Option Char) (l : List Char) : Option Nat :=
  let k := runLen (fun c => c = ' ' || c = '\t') l
  if 1 ≤ k then some k else none

/-- Matcher for `\n\s*\n\s*\n+`: starting at a newline, the whitespace run
from here must contain at least three newlines; the greedy `\s*` atoms
absorb the interior and the final `\n+` ends the match at the run's last
newline. -/
def blankLinesMatchAt (_prev : Option Char) (l : List Char) : Option Nat :=
  match l with
  | c :: _ =>
    if c = '\n' then
      let r := l.takeWhile isPySpace
      if 3 ≤ r.countP (fun x => x = '\n') then
        some (r.length - runLen (fun x => !(x = '\n')) r.reverse)
      else none
    else none
  | [] => none

/-- `clean_ocr_noise` of `privacy-shield.py`: the five noise patterns (each
occurrence replaced by one space, in list order), then the
horizontal-whitespace collapse, the blank-line collapse, and a final
strip. -/
def clean_ocr_noise (t : List Char) : List Char :=
  let t1 := pySub camMatchAt [' '] t
  let t2 := pySub wwwMatchAt [' '] t1
  let t3 := pySub dirCharMatchAt [' '] t2
  let t4 := pySub specialMatchAt [' '] t3
  let t5 := pySub underlineMatchAt [' '] t4
  let t6 := pySub hwsMatchAt [' '] t5
  let t7 := pySub blankLinesMatchAt ['\n', '\n'] t6
  pyStrip t7

/- ===================== privacy-shield.py : direction detection ===================== -/

/-- Python `text.split` on the newline character. -/
def splitNl : List Char → List (List Char)
  | [] => [[]]
  | c :: cs =>
    if c = '\n' then [] :: splitNl cs
    else
      match splitNl cs with
      | l :: ls => (c :: l) :: ls
      | [] => [[c]]

/-- Python newline `join`. -/
def joinNl : List (List Char) → List Char
  | [] => []
  | [l] => l
  | l :: ls => l ++ '\n' :: joinNl ls

/-- Prefix equality, helper of the substring test. -/
def startsSub : List Char → List Char → Bool
  | [], _ => true
  | _ :: _, [] => false
  | a :: xs, b :: ys => a = b && startsSub xs ys

/-- Substring occurrence, Python `needle in text`. -/
def containsSub (needle : List Char) : List Char → Bool
  | [] => startsSub needle []
  | c :: cs => startsSub needle (c :: cs) || containsSub needle cs

/-- `KEYWORDS_NORMAL` of the source. -/
def KEYWORDS_NORMAL : List (List Char) :=
  ["חוזה".data, "הסכם".data, "שכירות".data, "משכיר".data, "שוכר".data, "דירה".data]

/-- `KEYWORDS_REVERSED` of the source (the same words, characters
reversed). -/
def KEYWORDS_REVERSED : List (List Char) :=
  ["הזוח".data, "םכסה".data, "תוריכש".data, "ריכשמ".data, "רכוש".data, "הריד".data]

/-- `score_normal` of `detect_and_fix_direction`: how many of the normal
keywords occur in the text (`sum(1 for word in KEYWORDS_NORMAL if word in
text)`). -/
def dirScoreNormal (t : List Char) : Nat :=
  KEYWORDS_NORMAL.countP (fun w => containsSub w t)

/-- `score_reversed`: how many of the reversed keywords occur. -/
def dirScoreReversed (t : List Char) : Nat :=
  KEYWORDS_REVERSED.countP (fun w => containsSub w t)

/-- `detect_and_fix_direction` of `privacy-shield.py`: mirror every line
exactly when the reversed score strictly exceeds the normal score. -/
def detect_and_fix_direction (t : List Char) : List Char :=
  if dirScoreNormal t < dirScoreReversed t then
    joinNl ((splitNl t).map List.reverse)
  else t

/- ===================== privacy-shield.py : clause segmentation ===================== -/

/-- `SECTION_HEADERS` of the source. -/
def SECTION_HEADERS : List (List Char) :=
  ["מבוא".data, "הואיל".data, "לפיכך".data,
   "תקופת השכירות".data, "תקופת האופציה".data, "הארכת החוזה".data,
   "דמי השכירות".data, "דמי שכירות".data, "תשלומים".data,
   "מיסים, אגרות ותשלומים".data, "מיסים ותשלומים".data,
   "השימוש והחזקה".data, "השימוש במושכר".data, "החזקת המושכר".data,
   "אחריות לנזק".data, "אחריות".data, "נזקים".data,
   "פינוי המושכר".data, "פינוי הדירה".data, "פינוי".data,
   "בטחונות".data, "ערבויות".data, "ערבות".data, "ביטחונות".data,
   "הפרות".data, "הפרה יסודית".data, "ביטול ההסכם".data,
   "שונות".data, "הוראות כלליות".data, "כללי".data,
   "חתימות".data, "חתימה".data]

/-- `any(header in line for header in SECTION_HEADERS)`. -/
def is_header_line (l : List Char) : Bool :=
  SECTION_HEADERS.any (fun h => containsSub h l)

/-- The Hebrew ordinal range `[א-י]` (U+05D0 to U+05D9). -/
def isHebOrdinal (c : Char) : Bool := decide (0x5d0 ≤ c.toNat ∧ c.toNat ≤ 0x5d9)

/-- A character of the Hebrew block `[֐-׿]`. -/
def isHebrewBlock (c : Char) : Bool := decide (0x590 ≤ c.toNat ∧ c.toNat ≤ 0x5ff)

/-- The shekel abbreviation alternative `ש[״']?ח` of the money lookahead
(the ASCII apostrophe variant is built from code point 39). -/
def shekelAbbrevAt (l : List Char) : Bool :=
  match l with
  | c :: rest =>
    c = 'ש' &&
      (match rest with
       | m :: r2 =>
         if m = '״' || m = Char.ofNat 39 then
           (match r2 with | h :: _ => h = 'ח' | [] => false)
         else m = 'ח'
       | [] => false)
  | [] => false

/-- Lookahead `[0-9,]+\s*(?:ש[״']?ח|₪|שקל|אלף)`.  The `[0-9,]+` and `\s*`
atoms are effectively maximal: a shorter choice leaves a digit, comma or
whitespace character where the currency literal must start. -/
def moneyAheadFull (l : List Char) : Bool :=
  let k := runLen (fun c => c.isDigit || c = ',') l
  if k = 0 then false
  else
    let rest := (l.drop k).dropWhile isPySpace
    shekelAbbrevAt rest || startsSub "₪".data rest ||
      startsSub "שקל".data rest || startsSub "אלף".data rest

/-- Lookahead `[0-9,]+\s*(?:ש[״']?ח|₪)`, the shorter money variant used by
the same-line split pattern. -/
def moneyAheadShort (l : List Char) : Bool :=
  let k := runLen (fun c => c.isDigit || c = ',') l
  if k = 0 then false
  else
    let rest := (l.drop k).dropWhile isPySpace
    shekelAbbrevAt rest || startsSub "₪".data rest

/-- Lookahead `[0-9]{1,2}[./][0-9]` (date fragment), greedy two digits
first, then one. -/
def dateAhead : List Char → Bool
  | a :: b :: rest =>
    if a.isDigit then
      if b.isDigit then
        (match rest with
         | s :: d :: _ => (s = '.' || s = '/') && d.isDigit
         | _ => false)
      else
        (b = '.' || b = '/') &&
          (match rest with | d :: _ => d.isDigit | [] => false)
    else false
  | _ => false

/-- The `\s+` of `CLAUSE_NUMBER_PATTERN` followed by its two negative
lookaheads: greedy, backtracking from the full whitespace run down to a
single character until both lookaheads pass (at a non-maximal length the
lookahead position holds a whitespace character, where both lookaheads pass
vacuously). -/
def cnTryWs (l : List Char) : Nat → Bool
  | 0 => false
  | k + 1 =>
    (!moneyAheadFull (l.drop (k + 1)) && !dateAhead (l.drop (k + 1))) || cnTryWs l k

/-- `[.\)]\s+(?!money)(?!date)` after the ordinal group of
`CLAUSE_NUMBER_PATTERN`. -/
def cnAfterGroup (l : List Char) : Bool :=
  match l with
  | c :: rest =>
    if c = '.' || c = ')' then
      let w := runLen isPySpace rest
      if w = 0 then false else cnTryWs rest w
    else false
  | [] => false

/-- `bool(CLAUSE_NUMBER_PATTERN.match(line))`: at position zero the `^`
anchor alternative applies; then one or two digits (greedy) or a single
Hebrew ordinal letter, a dot or closing parenthesis, whitespace, and the
negative money/date lookaheads. -/
def clauseNumberMatch (line : List Char) : Bool :=
  match line with
  | a :: rest =>
    if a.isDigit then
      (match rest with
       | b :: r2 => (b.isDigit && cnAfterGroup r2) || cnAfterGroup rest
       | [] => false)
    else if isHebOrdinal a then cnAfterGroup rest
    else false
  | [] => false

/-- Head of the remainder lies in the Hebrew block (`(?=[֐-׿])`
lookahead). -/
def hebrewAheadAt (l : List Char) : Bool :=
  match l with
  | c :: _ => isHebrewBlock c
  | [] => false

/-- The second `\s+` of the same-line split pattern with its lookaheads:
greedy, backtracking down; only the maximal run length can place the
required Hebrew character, shorter lengths stand on whitespace. -/
def spTryWs (l : List Char) : Nat → Option Nat
  | 0 => none
  | k + 1 =>
    let l2 := l.drop (k + 1)
    if !moneyAheadShort l2 && !dateAhead l2 && hebrewAheadAt l2 then some (k + 1)
    else spTryWs l k

/-- `\.\s+(?!money)(?!date)(?=[֐-׿])` after the digits of the
same-line split pattern; returns the consumed length. -/
def spDot (l : List Char) : Option Nat :=
  match l with
  | c :: r2 =>
    if c = '.' then
      let w2 := runLen isPySpace r2
      if w2 = 0 then none
      else
        match spTryWs r2 w2 with
        | some k => some (1 + k)
        | none => none
    else none
  | [] => none

/-- Matcher for the same-line split pattern
`(?<=\S)\s+([0-9]{1,2})\.\s+(?!money)(?!date)(?=[֐-׿])`.  The
first `\s+` is effectively maximal (a shorter run leaves whitespace where a
digit is required); the digit group is greedy, two then one. -/
def splitPointMatchAt (prev : Option Char) (l : List Char) : Option Nat :=
  match prev with
  | none => none
  | some p =>
    if isPySpace p then none
    else
      let w1 := runLen isPySpace l
      if w1 = 0 then none
      else
        match l.drop w1 with
        | a :: rest =>
          if a.isDigit then
            let afterDigits :=
              match rest with
              | b :: r2 =>
                if b.isDigit then
                  match spDot r2 with
                  | some n => some (2 + n)
                  | none =>
                    match spDot rest with
                    | some n => some (1 + n)
                    | none => none
                else
                  match spDot rest with
                  | some n => some (1 + n)
                  | none => none
              | [] => none
            match afterDigits with
            | some n => some (w1 + n)
            | none => none
          else none
        | [] => none

/-- The flush step `if current_clause and len(current_clause.strip()) > 15:
clauses.append(current_clause.strip())` of the line-grouping pass. -/
def flushClause (cls : List (List Char)) (cur : List Char) : List (List Char) :=
  if !cur.isEmpty && 15 < (pyStrip cur).length then cls ++ [pyStrip cur] else cls

/-- One line of the first (line-grouping) pass of `split_to_clauses`; the
state is (collected clauses, current accumulator). -/
def phase1Step (st : List (List Char) × List Char) (rawLine : List Char) :
    List (List Char) × List Char :=
  let line := pyStrip rawLine
  if line.isEmpty then st
  else
    let isNew := is_header_line line || clauseNumberMatch line
    if isNew then (flushClause st.1 st.2, line)
    else if st.2.isEmpty then (st.1, line)
    else (st.1, st.2 ++ ' ' :: line)

/-- The whole line-grouping pass, with the trailing flush. -/
def phase1 (t : List Char) : List (List Char) :=
  let st := (splitNl t).foldl phase1Step ([], [])
  flushClause st.1 st.2

/-- Python slice `clause[a:b]`. -/
def sliceL (l : List Char) (a b : Nat) : List Char := (l.take b).drop a

/-- The split loop of the second pass: cut before each match start, resume
one character after it (`prev_pos = pos + 1` in the source), keep stripped
fragments longer than 15 characters. -/
def segSplit (clause : List Char) : Nat → List (Nat × Nat) → List (List Char)
  | prevPos, [] =>
    let last := pyStrip (clause.drop prevPos)
    if 15 < last.length then [last] else []
  | prevPos, (pos, _) :: rest =>
    let sub := pyStrip (sliceL clause prevPos pos)
    (if 15 < sub.length then [sub] else []) ++ segSplit clause (pos + 1) rest

/-- Second pass of `split_to_clauses` for one grouped clause. -/
def phase2One (clause : List Char) : List (List Char) :=
  let pts := pyFindIter splitPointMatchAt clause
  if pts.isEmpty then (if 15 < clause.length then [clause] else [])
  else segSplit clause 0 pts

/-- Matcher for `\s+` (the final whitespace collapse of the cleanup). -/
def wsRunMatchAt (_prev : Option Char) (l : List Char) : Option Nat :=
  let k := runLen isPySpace l
  if 1 ≤ k then some k else none

/-- `re.sub` of all whitespace runs to single spaces, then strip. -/
def collapseClause (l : List Char) : List Char := pyStrip (pySub wsRunMatchAt [' '] l)

/-- `bool(re.match(chr(94) ++ [\d\W]+ ++ dollar, clause))`: the fragment is
non-empty and every character is a digit or a non-word character. -/
def allDigitOrNonWord (l : List Char) : Bool :=
  !l.isEmpty && l.all (fun c => c.isDigit || !isPyWord c)

/-- `split_to_clauses` of `privacy-shield.py`: line grouping, same-line
re-split, then the final cleanup filter. -/
def split_to_clauses (t : List Char) : List (List Char) :=
  let cls := phase1 t
  let fin := cls.foldr (fun c acc => phase2One c ++ acc) []
  (fin.map collapseClause).filter (fun c => !allDigitOrNonWord c)

/- ===================== privacy-shield.py : confidence and handler ===================== -/

/-- `CONTRACT_KEYWORDS` with weights (the check-deposit keyword contains an
ASCII apostrophe, built from code point 39). -/
def CONTRACT_KEYWORDS : List (List Char × Nat) :=
  [("חוזה שכירות".data, 20), ("הסכם שכירות".data, 20),
   ("המשכיר".data, 10), ("משגיר".data, 10), ("בעל הדירה".data, 10),
   ("השוכר".data, 10), ("השובר".data, 10),
   ("דמי שכירות".data, 15), ("תשלום חודשי".data, 10),
   ("תקופת השכירות".data, 10), ("תקופת האופציה".data, 5),
   ("פינוי".data, 5), ("ערבות".data, 5),
   ('צ' :: Char.ofNat 39 :: "ק ביטחון".data, 5),
   ("בלתי מוגנת".data, 10)]

/-- `calculate_contract_confidence`: add the weight of every keyword found
in the text or in its lowercased form, clamped at 100.  Python `str.lower`
is modelled by ASCII `Char.toLower`; it is the identity on Hebrew. -/
def calculate_contract_confidence (t : List Char) : Nat :=
  min 100
    (CONTRACT_KEYWORDS.foldl
      (fun s kw =>
        if containsSub kw.1 t || containsSub kw.1 (t.map Char.toLower) then s + kw.2 else s)
      0)

/-- The Step Functions event consumed by the privacy-shield handler. -/
structure PsEvent where
  extractedText : Option String
  contractId : Option String
  bucket : Option String
  key : Option String
deriving DecidableEq, Repr

/-- The dict returned by `lambda_handler`.  `Option` marks keys that only
one branch emits: the early no-text return carries `error`,
`contractConfidence` and `sanitizedText` and nothing else; the success
branch carries everything but `error`. -/
structure PsResult where
  error : Option String
  contractId : Option String
  sanitizedText : String
  clauses : Option (List String)
  contractConfidence : Nat
  piiFound : Option (List String)
  bucket : Option (Option String)
  key : Option (Option String)
deriving DecidableEq, Repr

/-- `lambda_handler` of `privacy-shield.py`: missing or empty text
short-circuits to the error result; otherwise direction fix, PII masking,
noise cleaning, clause split and confidence scoring, in that order. -/
def lambda_handler (ev : PsEvent) : PsResult :=
  let text := (ev.extractedText.getD "").data
  if text.isEmpty then
    { error := some "No text extracted", contractId := none, sanitizedText := "",
      clauses := none, contractConfidence := 0, piiFound := none,
      bucket := none, key := none }
  else
    let t1 := detect_and_fix_direction text
    let p := sanitize_pii t1
    let t3 := clean_ocr_noise p.1
    { error := none, contractId := some (ev.contractId.getD "unknown"),
      sanitizedText := String.mk t3,
      clauses := some ((split_to_clauses t3).map String.mk),
      contractConfidence := calculate_contract_confidence t3,
      piiFound := some p.2,
      bucket := some ev.bucket, key := some ev.key }

/-- Event with the given extracted text and no other fields. -/
def mkEv (s : String) : PsEvent :=
  { extractedText := some s, contractId := none, bucket := none, key := none }

/-- The input exhibiting the PII leak: an Israeli-id-shaped digit run
guarded by short underscore runs. -/
def leakEv : PsEvent := mkEv "___12345678___"

/-- The input exhibiting the clause length-floor violation: two short words
separated by a run of carriage returns. -/
def crEv : PsEvent := mkEv "abcd\r\r\r\r\r\r\r\r\r\r\r\refgh"

/-- Event with empty extracted text. -/
def emptyEv : PsEvent := mkEv ""

/- ===================== helper lemmas ===================== -/

theorem stepIssue_filtered (st : CalcSt) (i : Issue) :
    (stepIssue st i).filtered = st.filtered ++ (if acceptIssue i = true then [i] else []) := by
  unfold stepIssue
  by_cases h : acceptIssue i = true
  · cases hc : catOf i <;> simp [h, hc]
  · simp [h]

theorem stepIssue_scores (st : CalcSt) (i : Issue) (cat : Cat) :
    (stepIssue st i).scores cat =
      if acceptIssue i = true ∧ catOf i = some cat
      then max 0 (st.scores cat - parsePenalty i) else st.scores cat := by
  unfold stepIssue
  by_cases h : acceptIssue i = true
  · cases hc : catOf i with
    | none => simp [h, hc]
    | some c =>
      by_cases hcc : cat = c
      · subst hcc; simp [h, hc]
      · have hcc' : ¬(c = cat) := fun hh => hcc hh.symm
        simp [h, hc, hcc, hcc']
  · simp [h]

theorem stepIssue_sums (st : CalcSt) (i : Issue) (cat : Cat) :
    (stepIssue st i).sums cat =
      if acceptIssue i = true ∧ catOf i = some cat
      then st.sums cat + parsePenalty i else st.sums cat := by
  unfold stepIssue
  by_cases h : acceptIssue i = true
  · cases hc : catOf i with
    | none => simp [h, hc]
    | some c =>
      by_cases hcc : cat = c
      · subst hcc; simp [h, hc]
      · have hcc' : ¬(c = cat) := fun hh => hcc hh.symm
        simp [h, hc, hcc, hcc']
  · simp [h]

theorem penSumMap_cons (cat : Cat) (i : Issue) (t : List Issue) :
    penSumMap cat (i :: t) =
      (if acceptIssue i = true ∧ catOf i = some cat then parsePenalty i else 0) +
        penSumMap cat t := by
  unfold penSumMap
  by_cases h : acceptIssue i = true
  · by_cases hc : catOf i = some cat
    · simp [List.filter_cons, h, hc]
    · simp [List.filter_cons, h, hc]
  · simp [List.filter_cons, h]

theorem penSumMap_nonneg (cat : Cat) (l : List Issue) : 0 ≤ penSumMap cat l := by
  unfold penSumMap
  apply List.sum_nonneg
  intro x hx
  simp only [List.mem_map, List.mem_filter] at hx
  obtain ⟨i, ⟨⟨_, hacc⟩, _⟩, hpe⟩ := hx
  simp only [acceptIssue, decide_eq_true_eq] at hacc
  omega

theorem foldl_filtered (l : List Issue) :
    ∀ st : CalcSt, (l.foldl stepIssue st).filtered = st.filtered ++ l.filter acceptIssue := by
  induction l with
  | nil => intro st; simp
  | cons i t ih =>
    intro st
    rw [List.foldl_cons, ih, stepIssue_filtered, List.filter_cons]
    by_cases h : acceptIssue i = true <;> simp [h]

theorem stepIssue_scores_nonneg (st : CalcSt) (i : Issue) (cat : Cat)
    (h : 0 ≤ st.scores cat) : 0 ≤ (stepIssue st i).scores cat := by
  rw [stepIssue_scores]
  split
  · exact le_max_left 0 _
  · exact h

theorem foldl_scores (l : List Issue) (cat : Cat) :
    ∀ st : CalcSt, 0 ≤ st.scores cat →
      (l.foldl stepIssue st).scores cat = max 0 (st.scores cat - penSumMap cat l) := by
  induction l with
  | nil =>
    intro st h
    simp [penSumMap]
    omega
  | cons i t ih =>
    intro st h
    rw [List.foldl_cons, ih (stepIssue st i) (stepIssue_scores_nonneg st i cat h),
      stepIssue_scores, penSumMap_cons]
    have ht := penSumMap_nonneg cat t
    by_cases hic : acceptIssue i = true ∧ catOf i = some cat
    · simp only [if_pos hic]
      omega
    · simp only [if_neg hic]
      omega

theorem foldl_sums (l : List Issue) (cat : Cat) :
    ∀ st : CalcSt, (l.foldl stepIssue st).sums cat = st.sums cat + penSumMap cat l := by
  induction l with
  | nil => intro st; simp [penSumMap]
  | cons i t ih =>
    intro st
    rw [List.foldl_cons, ih (stepIssue st i), stepIssue_sums, penSumMap_cons]
    by_cases hic : acceptIssue i = true ∧ catOf i = some cat
    · simp only [if_pos hic]; omega
    · simp only [if_neg hic]; omega

theorem recalc_formula (r : AnalysisResult) (h : r.is_contract.getD true = true) :
    (recalculate_scores r).score_breakdown = some (formulaBreakdown r.issues) ∧
    (recalculate_scores r).overall_risk_score = some (formulaOverall r.issues) ∧
    (recalculate_scores r).issues = r.issues.filter acceptIssue := by
  have hc : ¬ (r.is_contract.getD true = false) := by simp [h]
  have hs : ∀ cat, (r.issues.foldl stepIssue initCalcSt).scores cat
      = max 0 (20 - penSumMap cat r.issues) := fun cat =>
    foldl_scores r.issues cat initCalcSt (by norm_num [initCalcSt])
  have hsum : ∀ cat, (r.issues.foldl stepIssue initCalcSt).sums cat
      = 0 + penSumMap cat r.issues := fun cat => foldl_sums r.issues cat initCalcSt
  refine ⟨?_, ?_, ?_⟩
  · simp only [recalculate_scores, if_neg hc]
    simp only [formulaBreakdown, formulaEntry, mkEntry, hs, hsum, zero_add]
  · simp only [recalculate_scores, if_neg hc]
    simp only [formulaOverall, allCats, List.map_cons, List.map_nil, List.sum_cons,
      List.sum_nil, hs, Option.some_inj]
    omega
  · simp only [recalculate_scores, if_neg hc]
    simpa [initCalcSt] using foldl_filtered r.issues initCalcSt

theorem penSumMap_zero_of_no_cat (cat : Cat) (l : List Issue)
    (h : ∀ i ∈ l, catOf i = none) : penSumMap cat l = 0 := by
  unfold penSumMap
  have hf : (l.filter acceptIssue).filter (fun i => catOf i == some cat) = [] := by
    rw [List.filter_eq_nil_iff]
    intro a ha
    have : a ∈ l := List.mem_of_mem_filter ha
    simp [h a this]
  rw [hf]
  simp

theorem penSumMap_perm (cat : Cat) {l₁ l₂ : List Issue} (h : l₁.Perm l₂) :
    penSumMap cat l₁ = penSumMap cat l₂ :=
  List.Perm.sum_eq (((h.filter acceptIssue).filter (fun i => catOf i == some cat)).map parsePenalty)

/- ===================== claim theorems: score calculator ===================== -/

/-- Claim C2: on a result flagged as a contract, every category's final
score is `max 0 (20 - sum of accepted mapped penalties)`, the raw penalty
sum is reported per category, the overall score is the sum of the five
final scores, each category score lies in `[0, 20]`, the overall score lies
in `[0, 100]`, and the concrete scenario `[F1 penalty 10, F4 penalty 15]`
yields financial score 0, penalty sum 25 and overall 80. -/
theorem c2_score_formula :
    (∀ r : AnalysisResult, r.is_contract.getD true = true →
      (recalculate_scores r).score_breakdown = some (formulaBreakdown r.issues) ∧
      (recalculate_scores r).overall_risk_score = some (formulaOverall r.issues) ∧
      (∀ cat, 0 ≤ (formulaEntry cat r.issues).score ∧ (formulaEntry cat r.issues).score ≤ 20) ∧
      (0 ≤ formulaOverall r.issues ∧ formulaOverall r.issues ≤ 100)) ∧
    recalculate_scores exS2 = expS2 := by
  constructor
  · intro r h
    obtain ⟨hbd, hov, _⟩ := recalc_formula r h
    refine ⟨hbd, hov, ?_, ?_⟩
    · intro cat
      have := penSumMap_nonneg cat r.issues
      constructor
      · simp only [formulaEntry]
        omega
      · simp only [formulaEntry]
        omega
    · have h1 := penSumMap_nonneg Cat.financial_terms r.issues
      have h2 := penSumMap_nonneg Cat.tenant_rights r.issues
      have h3 := penSumMap_nonneg Cat.termination_clauses r.issues
      have h4 := penSumMap_nonneg Cat.liability_repairs r.issues
      have h5 := penSumMap_nonneg Cat.legal_compliance r.issues
      simp only [formulaOverall, allCats, List.map_cons, List.map_nil, List.sum_cons,
        List.sum_nil]
      omega
  · decide

/-- Claim C2 witness: the formula instantiated on the S2 scenario. -/
theorem c2_score_formula_witness :
    (recalculate_scores exS2).overall_risk_score = some (formulaOverall exS2.issues) :=
  (c2_score_formula.1 exS2 rfl).2.1

/-- Claim C4: an issue is kept exactly when its rule id is non-empty and
its parsed penalty is strictly positive; malformed or missing penalties
parse to 0 (hence the issue is dropped, with no exception modelled since
the embedding is total); accepted issues with an unmapped prefix are kept
but deduct from no category; the concrete scenario S3 (empty rule id and
rule Z9, both penalty 5) keeps one issue, all categories at 20, overall
100. -/
theorem c4_issue_validation :
    (∀ r : AnalysisResult, r.is_contract.getD true = true →
      (recalculate_scores r).issues = r.issues.filter acceptIssue) ∧
    (∀ i : Issue, acceptIssue i = true ↔ (ruleIdOf i ≠ "" ∧ 0 < parsePenalty i)) ∧
    (∀ rid d s, pyIntOfString s = none →
      parsePenalty { rule_id := rid, penalty_points := some (PyPen.pstr s), description := d } = 0) ∧
    (∀ rid d,
      parsePenalty { rule_id := rid, penalty_points := none, description := d } = 0 ∧
      parsePenalty { rule_id := rid, penalty_points := some PyPen.pnull, description := d } = 0) ∧
    (∀ r : AnalysisResult, r.is_contract.getD true = true →
      (∀ i ∈ r.issues, catOf i = none) →
      (recalculate_scores r).score_breakdown = some fullBreakdown ∧
      (recalculate_scores r).overall_risk_score = some 100) ∧
    recalculate_scores exS3 = expS3 := by
  refine ⟨?_, ?_, ?_, ?_, ?_, ?_⟩
  · intro r h
    exact (recalc_formula r h).2.2
  · intro i
    simp [acceptIssue]
  · intro rid d s hs
    simp [parsePenalty, hs]
  · intro rid d
    exact ⟨rfl, rfl⟩
  · intro r h hnone
    obtain ⟨hbd, hov, _⟩ := recalc_formula r h
    have hz : ∀ cat, penSumMap cat r.issues = 0 := fun cat =>
      penSumMap_zero_of_no_cat cat r.issues hnone
    constructor
    · rw [hbd]
      simp [formulaBreakdown, formulaEntry, hz, fullBreakdown]
    · rw [hov]
      simp [formulaOverall, allCats, hz]
  · decide

/-- Claim C4 witness: the retention equation instantiated on the S3
scenario. -/
theorem c4_issue_validation_witness :
    (recalculate_scores exS3).issues = exS3.issues.filter acceptIssue :=
  c4_issue_validation.1 exS3 rfl

/-- Claim C5: a result flagged as not a contract short-circuits to overall
score 0 and all five category scores 0, whatever the issues are. -/
theorem c5_non_contract_zero :
    ∀ r : AnalysisResult, r.is_contract = some false →
      (recalculate_scores r).overall_risk_score = some 0 ∧
      (recalculate_scores r).score_breakdown = some zeroBreakdown ∧
      (∀ cat, (bdGet zeroBreakdown cat).score = 0) := by
  intro r h
  refine ⟨?_, ?_, ?_⟩
  · simp [recalculate_scores, h]
  · simp [recalculate_scores, h]
  · intro cat; cases cat <;> rfl

/-- Claim C5 witness: the short circuit on a concrete non-contract record
that carries issues. -/
theorem c5_non_contract_zero_witness :
    (recalculate_scores exC10).overall_risk_score = some 0 :=
  (c5_non_contract_zero exC10 rfl).1

/-- Claim C9 counterexample: permuting the input issue list does not yield
an identical output, because the output issues list follows input order.
The two orderings of the same two issues produce different results. -/
theorem c9_permutation_counterexample :
    exPermA.issues.Perm exPermB.issues ∧
    recalculate_scores exPermA ≠ recalculate_scores exPermB := by
  constructor
  · exact List.Perm.swap issT issF []
  · decide

/-- Claim C9 (amended): permuting the input issue list leaves the
score breakdown and the overall risk score unchanged (floored deduction is
commutative in its final value); only the order of the returned issues list
follows the input order. -/
theorem c9_scores_perm_invariant :
    ∀ (r : AnalysisResult) (l₁ l₂ : List Issue), l₁.Perm l₂ →
      (recalculate_scores { r with issues := l₁ }).score_breakdown =
        (recalculate_scores { r with issues := l₂ }).score_breakdown ∧
      (recalculate_scores { r with issues := l₁ }).overall_risk_score =
        (recalculate_scores { r with issues := l₂ }).overall_risk_score := by
  intro r l₁ l₂ hperm
  by_cases hc : r.is_contract.getD true = false
  · constructor <;> simp [recalculate_scores, hc]
  · have hct : r.is_contract.getD true = true := by
      cases hv : r.is_contract.getD true
      · exact absurd hv hc
      · rfl
    have h₁ := recalc_formula { r with issues := l₁ } hct
    have h₂ := recalc_formula { r with issues := l₂ } hct
    have hpen : ∀ cat, penSumMap cat l₁ = penSumMap cat l₂ := fun cat =>
      penSumMap_perm cat hperm
    constructor
    · rw [h₁.1, h₂.1]
      simp [formulaBreakdown, formulaEntry, hpen]
    · rw [h₁.2.1, h₂.2.1]
      simp [formulaOverall, allCats, hpen]

/-- Claim C9 witness: score invariance under the concrete two-issue swap. -/
theorem c9_scores_perm_invariant_witness :
    (recalculate_scores exPermA).score_breakdown =
      (recalculate_scores exPermB).score_breakdown :=
  (c9_scores_perm_invariant permBase [issF, issT] [issT, issF]
    (List.Perm.swap issT issF [])).1

/-- Claim C10: in the not-a-contract branch only `overall_risk_score` and
`score_breakdown` change; the issues list (including invalid issues) and
every other field pass through unchanged. -/
theorem c10_non_contract_frame :
    (∀ r : AnalysisResult, r.is_contract = some false →
      recalculate_scores r =
        { r with overall_risk_score := some 0, score_breakdown := some zeroBreakdown }) ∧
    (recalculate_scores exC10).issues =
      [{ rule_id := some "", penalty_points := some (PyPen.pint 5), description := "kept" }] := by
  constructor
  · intro r h
    simp [recalculate_scores, h]
  · decide

/-- Claim C10 witness: the frame equation on the concrete non-contract
record with an invalid issue. -/
theorem c10_non_contract_frame_witness :
    recalculate_scores exC10 =
      { exC10 with overall_risk_score := some 0, score_breakdown := some zeroBreakdown } :=
  c10_non_contract_frame.1 exC10 rfl

/- ===================== line-splitting lemmas ===================== -/

theorem splitNl_ne_nil (t : List Char) : splitNl t ≠ [] := by
  induction t with
  | nil => simp [splitNl]
  | cons c cs ih =>
    simp only [splitNl]
    by_cases h : c = '\n'
    · simp [h]
    · simp only [if_neg h]
      cases hs : splitNl cs with
      | nil => simp
      | cons l ls => simp

theorem nl_not_mem_splitNl (t : List Char) : ∀ l ∈ splitNl t, '\n' ∉ l := by
  induction t with
  | nil =>
    intro l hl
    simp only [splitNl, List.mem_singleton] at hl
    subst hl
    simp
  | cons c cs ih =>
    intro l hl
    simp only [splitNl] at hl
    by_cases h : c = '\n'
    · rw [if_pos h] at hl
      rcases List.mem_cons.mp hl with h1 | h2
      · subst h1; simp
      · exact ih l h2
    · rw [if_neg h] at hl
      cases hs : splitNl cs with
      | nil =>
        rw [hs] at hl
        simp only [List.mem_singleton] at hl
        subst hl
        simp only [List.mem_singleton]
        exact fun hh => h hh.symm
      | cons l0 ls =>
        rw [hs] at hl
        rcases List.mem_cons.mp hl with h1 | h2
        · subst h1
          intro hmem
          rcases List.mem_cons.mp hmem with hx | hx
          · exact h hx.symm
          · exact ih l0 (hs ▸ List.mem_cons_self l0 ls) hx
        · exact ih l (hs ▸ List.mem_cons_of_mem l0 h2)

theorem splitNl_no_nl (l : List Char) (h : '\n' ∉ l) : splitNl l = [l] := by
  induction l with
  | nil => rfl
  | cons c cs ih =>
    have hc : ¬ c = '\n' := fun hh => h (by simp [hh])
    simp only [splitNl, if_neg hc]
    rw [ih (fun hm => h (List.mem_cons_of_mem c hm))]

theorem splitNl_append_nl (l rest : List Char) (h : '\n' ∉ l) :
    splitNl (l ++ '\n' :: rest) = l :: splitNl rest := by
  induction l with
  | nil => simp [splitNl]
  | cons c cs ih =>
    have hc : ¬ c = '\n' := fun hh => h (by simp [hh])
    simp only [List.cons_append, splitNl, if_neg hc, List.append_eq]
    rw [ih (fun hm => h (List.mem_cons_of_mem c hm))]

theorem splitNl_joinNl (ls : List (List Char)) (hne : ls ≠ [])
    (h : ∀ l ∈ ls, '\n' ∉ l) : splitNl (joinNl ls) = ls := by
  induction ls with
  | nil => exact absurd rfl hne
  | cons l tl ih =>
    cases tl with
    | nil =>
      show splitNl (joinNl [l]) = [l]
      exact splitNl_no_nl l (h l (by simp))
    | cons l2 ls2 =>
      show splitNl (l ++ '\n' :: joinNl (l2 :: ls2)) = l :: l2 :: ls2
      rw [splitNl_append_nl l _ (h l (by simp))]
      rw [ih (by simp) (fun x hx => h x (List.mem_cons_of_mem l hx))]

/- ===================== claim theorems: normalizer pipeline ===================== -/

/-- Claim C1 is violated by the code: on input with short underscore runs
around an eight-digit number, the underscores suppress the word boundary
during masking, and the subsequent OCR-noise cleaning deletes them, so the
final sanitized text is a bare eight-digit string that still matches the
israeli_id pattern.  This theorem evaluates the full pipeline on the
failing input. -/
theorem c1_pii_leak :
    (lambda_handler leakEv).sanitizedText = "12345678" ∧
    pySearch israeliIdMatchAt ("12345678".data) = true := by
  constructor
  · decide
  · decide

/-- Claim C3 is violated by the code: re-sanitizing the sanitized text of
the leak input masks the digit run that the first pass let through, so the
text output changes on the second application. -/
theorem c3_not_idempotent :
    (lambda_handler (mkEv (lambda_handler leakEv).sanitizedText)).sanitizedText ≠
      (lambda_handler leakEv).sanitizedText := by
  decide

/-- Claim C6: the text is mirrored (every line reversed, line structure
preserved) exactly when the reversed-keyword score strictly exceeds the
normal-keyword score; at a tie or below, the text is unchanged. -/
theorem c6_direction_correction :
    ∀ t : List Char,
      (dirScoreNormal t < dirScoreReversed t →
        detect_and_fix_direction t = joinNl ((splitNl t).map List.reverse) ∧
        splitNl (detect_and_fix_direction t) = (splitNl t).map List.reverse) ∧
      (dirScoreReversed t ≤ dirScoreNormal t → detect_and_fix_direction t = t) := by
  intro t
  constructor
  · intro h
    have he : detect_and_fix_direction t = joinNl ((splitNl t).map List.reverse) := by
      unfold detect_and_fix_direction
      rw [if_pos h]
    refine ⟨he, ?_⟩
    have hmem : ∀ l ∈ (splitNl t).map List.reverse, '\n' ∉ l := by
      intro l hl
      rcases List.mem_map.mp hl with ⟨l0, hl0, rfl⟩
      intro hmm
      exact nl_not_mem_splitNl t l0 hl0 (List.mem_reverse.mp hmm)
    have hne2 : (splitNl t).map List.reverse ≠ [] := by
      intro hh
      exact splitNl_ne_nil t (List.map_eq_nil_iff.mp hh)
    rw [he, splitNl_joinNl _ hne2 hmem]
  · intro h
    unfold detect_and_fix_direction
    rw [if_neg (not_lt.mpr h)]

/-- Claim C6 witness: a text holding one normal and one reversed keyword
(a tie) is left unchanged. -/
theorem c6_direction_correction_witness :
    detect_and_fix_direction ("חוזה הזוח".data) = "חוזה הזוח".data :=
  (c6_direction_correction _).2 (by decide)

/-- Claim C7 counterexample: on empty input the handler's early return
carries no clauses key at all, so it does not return an empty clauses
list. -/
theorem c7_no_clauses_counterexample :
    (lambda_handler emptyEv).clauses ≠ some [] ∧
    (lambda_handler emptyEv).clauses = none := by
  constructor
  · decide
  · decide

/-- Claim C7 (amended): empty or absent input makes the handler return
immediately, without attempting any transform, the fixed error result with
contract confidence 0 and empty sanitized text — but with no clauses (or
piiFound) field, an error marker taking their place; the embedding is a
total function, so nothing is raised. -/
theorem c7_empty_input :
    ∀ ev : PsEvent, ev.extractedText.getD "" = "" →
      lambda_handler ev =
        { error := some "No text extracted", contractId := none, sanitizedText := "",
          clauses := none, contractConfidence := 0, piiFound := none,
          bucket := none, key := none } := by
  intro ev h
  simp [lambda_handler, h]

/-- Claim C7 witness: the amended statement on the concrete empty event. -/
theorem c7_empty_input_witness :
    lambda_handler emptyEv =
      { error := some "No text extracted", contractId := none, sanitizedText := "",
        clauses := none, contractConfidence := 0, piiFound := none,
        bucket := none, key := none } :=
  c7_empty_input emptyEv rfl

/-- Claim C8 is violated by the code: carriage-return runs survive the
`[ \t]+` collapse of the noise cleaner, the length checks of
`split_to_clauses` run before the final whitespace collapse, and the
collapse then shrinks the kept clause to 9 characters — at most 15, against
the claimed floor of more than 15. -/
theorem c8_clause_floor_violation :
    (lambda_handler crEv).clauses = some ["abcd efgh"] ∧
    (pyStrip ("abcd efgh".data)).length = 9 := by
  constructor
  · decide
  · decide
